import Mathlib

/-!
Shallow embedding of the vvcnv batch video transcoder (src/main.rs,
src/modules/video.rs, src/modules/file.rs).

Conventions of the embedding:
* Rust `u32` / `u64` values are modelled as `Nat`; `i32` as `Int`.
* Rust `f32` / `f64` values (frame rates, durations, aspect ratios) are
  modelled as exact rationals `ℚ`; the numeric casts the source performs
  (`as u32`, `as u64`, `.round()`) are modelled explicitly below
  (`f32_to_u32`, `f32_to_u64`, `rust_round`, `i32_to_u32`).
* `std::time::Duration` is modelled as a rational number of seconds;
  `Duration::as_secs` truncates to whole seconds.
* Fallible Rust functions returning `Result` become `Except`.
* The ffmpeg child process is modelled by the list of events its output
  stream produces plus its exit code.
-/

namespace VVCNV

/-- The `LogLevel` from ffmpeg_sidecar: the severity tag of a diagnostic line. -/
inductive LogLevel where
  | Info
  | Warning
  | Error
  | Fatal
  | Unknown
deriving DecidableEq, Repr

/-- The `VideoRes` (video.rs lines 15-26): a named 16:9 preset or an explicit
width × height pair. -/
inductive VideoRes where
  | R240p
  | R360p
  | R480p
  | R720p
  | R1080p
  | R1440p
  | R2160p
  | R4320p
  | Other (w h : Nat)
deriving DecidableEq, Repr

/-- The `ToStrError` (video.rs lines 28-31). -/
inductive ToStrError where
  | BothAreDynamicValue
deriving DecidableEq, Repr

/-- The `VideoRes::list169` (video.rs lines 42-53). -/
def VideoRes.list169 : List VideoRes :=
  [VideoRes.R240p, VideoRes.R360p, VideoRes.R480p, VideoRes.R720p,
   VideoRes.R1080p, VideoRes.R1440p, VideoRes.R2160p, VideoRes.R4320p]

/-- The `VideoRes::to_wh` (video.rs lines 55-67). -/
def VideoRes.to_wh : VideoRes → Nat × Nat
  | VideoRes.R240p => (426, 240)
  | VideoRes.R360p => (640, 360)
  | VideoRes.R480p => (854, 480)
  | VideoRes.R720p => (1280, 720)
  | VideoRes.R1080p => (1920, 1080)
  | VideoRes.R1440p => (2560, 1440)
  | VideoRes.R2160p => (3840, 2160)
  | VideoRes.R4320p => (7680, 4320)
  | VideoRes.Other w h => (w, h)

/-- The `VideoRes::to_file_name` (video.rs lines 83-87): the string "w" then "x" then "h". -/
def VideoRes.to_file_name (r : VideoRes) : String :=
  toString r.to_wh.1 ++ "x" ++ toString r.to_wh.2

/-- The `VideoRes::from_wh` (video.rs lines 89-101): the Rust `match` on the
eight literal preset pairs, falling through to `Other`. -/
def VideoRes.from_wh (width height : Nat) : VideoRes :=
  if width = 426 ∧ height = 240 then VideoRes.R240p
  else if width = 640 ∧ height = 360 then VideoRes.R360p
  else if width = 854 ∧ height = 480 then VideoRes.R480p
  else if width = 1280 ∧ height = 720 then VideoRes.R720p
  else if width = 1920 ∧ height = 1080 then VideoRes.R1080p
  else if width = 2560 ∧ height = 1440 then VideoRes.R1440p
  else if width = 3840 ∧ height = 2160 then VideoRes.R2160p
  else if width = 7680 ∧ height = 4320 then VideoRes.R4320p
  else VideoRes.Other width height

/-- Rust `i32 as u32`: a wrapping cast, i.e. the value modulo `2^32`. -/
def i32_to_u32 (w : Int) : Nat := (w % (2 ^ 32 : Int)).toNat

/-- Rust `f32 as u32`: a saturating cast, truncating toward zero, clamping
negatives to 0 and large values to `u32::MAX`. -/
def f32_to_u32 (q : ℚ) : Nat := min (Int.toNat ⌊q⌋) (2 ^ 32 - 1)

/-- Rust `f32 as u64`: a saturating cast, truncating toward zero. -/
def f32_to_u64 (q : ℚ) : Nat := min (Int.toNat ⌊q⌋) (2 ^ 64 - 1)

/-- Rust `f32::round`: rounds half away from zero. -/
def rust_round (q : ℚ) : Int := if 0 ≤ q then round q else -round (-q)

/-- The `VideoStream` from ffmpeg_sidecar, as used by video.rs: width, height,
frame rate and pixel format of the source video stream. -/
structure VideoStream where
  width : Nat
  height : Nat
  fps : ℚ
  pix_fmt : String
deriving DecidableEq, Repr

/-- The `AudioStream` from ffmpeg_sidecar; video.rs only ever counts them. -/
structure AudioStream where
  sample_rate : Nat
  channels : Nat
deriving DecidableEq, Repr

/-- The source aspect ratio `rw as f32 / rh as f32` computed by
`VideoRes::from_wh_dynamic` (video.rs line 113). -/
def aspect (vs : VideoStream) : ℚ := (vs.width : ℚ) / (vs.height : ℚ)

/-- The `VideoRes::from_wh_dynamic` (video.rs lines 103-137): derive a concrete
resolution from up to one unresolved axis plus the source aspect ratio. -/
def VideoRes.from_wh_dynamic (width height : Option Int) (vs : VideoStream) :
    Except ToStrError VideoRes :=
  match width, height with
  | none, none => Except.error ToStrError.BothAreDynamicValue
  | some w, some h =>
    Except.ok (VideoRes.from_wh (i32_to_u32 w) (i32_to_u32 h))
  | some w, none =>
    Except.ok (VideoRes.from_wh (i32_to_u32 w)
      (f32_to_u32 ((rust_round ((w : ℚ) / aspect vs)) : ℚ)))
  | none, some h =>
    Except.ok (VideoRes.from_wh
      (f32_to_u32 ((rust_round ((h : ℚ) * aspect vs)) : ℚ)) (i32_to_u32 h))

/-- The `VideoStat` (video.rs lines 179-186): the immutable probe result.
`duration` is in (rational) seconds. -/
structure VideoStat where
  path : String
  video_stream : VideoStream
  audio_streams : List AudioStream
  duration : ℚ
  file_size : Nat
deriving DecidableEq, Repr

/-- The `VideoConfigUpScalingErr` (video.rs lines 224-229). -/
inductive VideoConfigUpScalingErr where
  | Resolution (c r : VideoRes)
  | Fps (c r : Nat)
  | HasAudio
deriving DecidableEq, Repr

/-- The `VideoConfig` (video.rs lines 248-254): one encoding configuration. -/
structure VideoConfig where
  res : VideoRes
  fps : Nat
  crf : Nat
  has_audio : Bool
deriving DecidableEq, Repr

/-- The `VideoConfig::to_file_name` (video.rs lines 257-264):
a string of the res, fps and crf values joined with "--res-", "--fps-", "--crf-" markers. -/
def VideoConfig.to_file_name (c : VideoConfig) : String :=
  "--res-" ++ c.res.to_file_name ++ "--fps-" ++ toString c.fps
    ++ "--crf-" ++ toString c.crf

/-- The `VideoConfig::check_up_scaling` (video.rs lines 266-303): reject
configurations that would upscale the source.  The source compares the
requested `u32` fps against `r_fps as u32` (the `f32` source rate cast to
`u32`). -/
def VideoConfig.check_up_scaling (c : VideoConfig) (stat : VideoStat) :
    Except VideoConfigUpScalingErr Unit :=
  if c.res.to_wh.1 > stat.video_stream.width ∨ c.res.to_wh.2 > stat.video_stream.height then
    Except.error (VideoConfigUpScalingErr.Resolution c.res
      (VideoRes.from_wh stat.video_stream.width stat.video_stream.height))
  else if c.fps > f32_to_u32 stat.video_stream.fps then
    Except.error (VideoConfigUpScalingErr.Fps c.fps
      (f32_to_u32 stat.video_stream.fps))
  else if c.has_audio && stat.audio_streams.isEmpty then
    Except.error VideoConfigUpScalingErr.HasAudio
  else
    Except.ok ()

/-- The `handle_ffmpeg_event_log` (video.rs lines 322-343): policy for one
leveled diagnostic line.  The body of a fatal/error line is whatever follows
the last occurrence of the `"[fatal] "` marker. -/
def handle_ffmpeg_event_log (level : LogLevel) (err : String)
    (ignore_no_input : Bool) : Except String Unit :=
  match level with
  | LogLevel.Fatal | LogLevel.Error =>
    let err_body := (err.splitOn "[fatal] ").getLastD ""
    if err_body = "At least one output file must be specified" ∧
        ignore_no_input = true then
      Except.ok ()
    else
      Except.error err_body
  | LogLevel.Warning => Except.ok ()
  | _ => Except.ok ()

/-- The `FfmpegEvent` from ffmpeg_sidecar, restricted to the variants
`video::process` distinguishes; everything else is `OtherEvent`. -/
inductive FfmpegEvent where
  | Progress (frame : Nat)
  | Log (level : LogLevel) (msg : String)
  | ParsedDuration (d : ℚ)
  | OtherEvent
deriving DecidableEq, Repr

/-- The `VideoProcessParams` (video.rs lines 317-320). -/
structure VideoProcessParams where
  output_path : String
  config : VideoConfig
deriving DecidableEq, Repr

/-- Errors `video::process` can report: a rejected configuration (wrapped
with context at video.rs line 411) or a fatal/error ffmpeg log body
(video.rs line 439). -/
inductive ProcessError where
  | ConfigError (e : VideoConfigUpScalingErr)
  | EncodingError (msg : String)
deriving DecidableEq, Repr

/-- Outcome of one job: whether the external process was spawned, and the
job's result. -/
structure ProcessResult where
  launched : Bool
  result : Except ProcessError Unit
deriving Repr

/-- The event loop of `video::process` (video.rs lines 426-446): progress
events only drive the progress bar; a fatal/error log aborts the job with
its message; everything else is ignored. -/
def process_events : List FfmpegEvent → Except ProcessError Unit
  | [] => Except.ok ()
  | FfmpegEvent.Log level msg :: rest =>
    match handle_ffmpeg_event_log level msg false with
    | Except.error e => Except.error (ProcessError.EncodingError e)
    | Except.ok _ => process_events rest
  | _ :: rest => process_events rest

/-- The `video::process` (video.rs lines 404-449).  The child process is
modelled by its event list and its exit code.  The Rust function never
inspects the child's exit status — it returns `Ok(())` whenever the event
loop finishes without a fatal/error log — so `exit_code` is taken as a
parameter and faithfully ignored by the body. -/
def process (stat : VideoStat) (params : VideoProcessParams)
    (events : List FfmpegEvent) (exit_code : Nat) : ProcessResult :=
  match params.config.check_up_scaling stat with
  | Except.error e =>
    { launched := false, result := Except.error (ProcessError.ConfigError e) }
  | Except.ok _ =>
    { launched := true, result := process_events events }

/-- The `Duration::as_secs` on the rational-seconds model of a (non-negative)
`Duration`: truncate to whole seconds. -/
def duration_as_secs (d : ℚ) : Nat := Int.toNat ⌊d⌋

/-- The expected-total-frame expression of `video::process`
(video.rs line 432): `(stat.duration.as_secs() as f32) * stat.video_stream.fps`. -/
def total_frame (stat : VideoStat) : ℚ :=
  (duration_as_secs stat.duration : ℚ) * stat.video_stream.fps

/-- The value passed to `pb.set_length(total_frame as u64)`
(video.rs line 433). -/
def expected_total_frames (stat : VideoStat) : Nat :=
  f32_to_u64 (total_frame stat)

/-- The job matrix of main.rs line 86: `iproduct!(res, fps, crf)`, the
Cartesian product with resolution outermost, then fps, then crf. -/
def expand (rs : List VideoRes) (fs cs : List Nat) :
    List (VideoRes × Nat × Nat) :=
  rs.flatMap fun r => fs.flatMap fun f => cs.map fun c => (r, f, c)

/-- The resolutions of the run in main.rs line 77: `VideoRes::list169()`. -/
def run_res_list : List VideoRes := VideoRes.list169

/-- The frame rates of the run in main.rs line 78: `(30..=30).step_by(30)`. -/
def run_fps_list : List Nat := [30]

/-- The quality factors of the run in main.rs line 79:
`(20..=40).step_by(20)`. -/
def run_crf_list : List Nat := [20, 40]

/-- The configurations of the run, as built in main.rs lines 91-103:
each matrix element with `has_audio: true`. -/
def run_configs : List VideoConfig :=
  (expand run_res_list run_fps_list run_crf_list).map fun rfc =>
    { res := rfc.1, fps := rfc.2.1, crf := rfc.2.2, has_audio := true }

/-- Model of the completion trace of the concurrent units: `σ` lists job
indices in the order the units finish; each completed unit reports its
original index paired with its outcome. -/
def completionTrace {α : Type} (outs : List α) (σ : List Nat) (d : α) :
    List (Nat × α) :=
  σ.map fun i => (i, outs.getD i d)

/-- Model of `futures::future::join_all` (main.rs line 126): the joined
sequence holds, at position `i`, the outcome the trace reports for job `i`,
whatever order the units completed in. -/
def joinAll {α : Type} (n : Nat) (trace : List (Nat × α)) (d : α) : List α :=
  (List.range n).map fun i =>
    ((trace.find? fun p => p.1 == i).map Prod.snd).getD d

/-- The `VideoRes::from_wh` inverts `to_wh` on every pair: the preset branches
return presets with exactly the matched dimensions. -/
lemma to_wh_from_wh (w h : Nat) : (VideoRes.from_wh w h).to_wh = (w, h) := by
  unfold VideoRes.from_wh
  split_ifs with h1 h2 h3 h4 h5 h6 h7 h8 <;> simp_all [VideoRes.to_wh]

/-- C10: for every width/height pair, `to_wh (from_wh w h) = (w, h)`, and
each of the eight named presets round-trips through `to_wh` then `from_wh`. -/
theorem res_round_trip :
    (∀ w h : Nat, (VideoRes.from_wh w h).to_wh = (w, h))
  ∧ (∀ r ∈ VideoRes.list169, VideoRes.from_wh r.to_wh.1 r.to_wh.2 = r) := by
  refine ⟨to_wh_from_wh, ?_⟩
  decide

/-- Witness for C10 at concrete inputs: an arbitrary pair and the named
preset `R1080p`. -/
theorem res_round_trip_witness :
    (VideoRes.from_wh 426 241).to_wh = (426, 241) ∧
    VideoRes.R1080p ∈ VideoRes.list169 ∧
    VideoRes.from_wh 1920 1080 = VideoRes.R1080p :=
  ⟨res_round_trip.1 426 241, by decide, res_round_trip.2 VideoRes.R1080p (by decide)⟩

/-- C8: building a resolution with both axes dynamic is the construction
error `BothAreDynamicValue`; with at least one fixed axis the result is
`ok`, keeps each given axis (as the `u32` the source casts it to), and
derives a missing axis from the source aspect ratio. -/
theorem from_wh_dynamic_spec (vs : VideoStream) (w h : Int) :
    VideoRes.from_wh_dynamic none none vs =
      Except.error ToStrError.BothAreDynamicValue
  ∧ (VideoRes.from_wh_dynamic (some w) (some h) vs).map VideoRes.to_wh =
      Except.ok (i32_to_u32 w, i32_to_u32 h)
  ∧ (VideoRes.from_wh_dynamic (some w) none vs).map VideoRes.to_wh =
      Except.ok (i32_to_u32 w, f32_to_u32 ((rust_round ((w : ℚ) / aspect vs) : ℚ)))
  ∧ (VideoRes.from_wh_dynamic none (some h) vs).map VideoRes.to_wh =
      Except.ok (f32_to_u32 ((rust_round ((h : ℚ) * aspect vs) : ℚ)), i32_to_u32 h) := by
  refine ⟨rfl, ?_, ?_, ?_⟩ <;>
    simp [VideoRes.from_wh_dynamic, Except.map, to_wh_from_wh]

/-- C6: with the ignore flag set, a fatal/error line returns `ok` exactly
when its body (the text after the last `"[fatal] "` marker) is the benign
no-output message, and otherwise returns `error` carrying that body;
warning lines and all other severities always return `ok`. -/
theorem handle_log_policy (level : LogLevel) (msg : String) :
    (handle_ffmpeg_event_log level msg true = Except.ok () ↔
      (level = LogLevel.Warning ∨ level = LogLevel.Info ∨ level = LogLevel.Unknown ∨
        (msg.splitOn "[fatal] ").getLastD "" =
          "At least one output file must be specified"))
  ∧ (∀ e : String, handle_ffmpeg_event_log level msg true = Except.error e ↔
      ((level = LogLevel.Fatal ∨ level = LogLevel.Error) ∧
        e = (msg.splitOn "[fatal] ").getLastD "" ∧
        e ≠ "At least one output file must be specified")) := by
  cases level <;> simp [handle_ffmpeg_event_log] <;> intro e <;>
    split_ifs with hc <;> simp_all [eq_comm]

/-- For a sane source frame rate, the source's `u32`-cast comparison agrees
with comparing the exact rational rate: `f32_to_u32 q < n ↔ q < n`. -/
lemma f32_to_u32_lt_iff (q : ℚ) (n : Nat) (h0 : 0 ≤ q) (h1 : q < 2 ^ 32) :
    f32_to_u32 q < n ↔ q < (n : ℚ) := by
  unfold f32_to_u32
  have hfl : (0 : ℤ) ≤ ⌊q⌋ := Int.floor_nonneg.mpr h0
  have hlt : ⌊q⌋ < (2 : ℤ) ^ 32 := by
    rw [Int.floor_lt]
    exact_mod_cast h1
  have hmin : min (Int.toNat ⌊q⌋) (2 ^ 32 - 1) = Int.toNat ⌊q⌋ :=
    min_eq_left (by omega)
  rw [hmin]
  have h2 : Int.toNat ⌊q⌋ < n ↔ ⌊q⌋ < (n : ℤ) := by omega
  rw [h2, Int.floor_lt]
  norm_cast

/-- C1: `check_up_scaling` reports the first violated rule in the order
resolution, frame rate, audio: it is the `Resolution` error (carrying the
requested resolution and the source's equivalent) iff the requested width
or height exceeds the source's; otherwise the `Fps` error (carrying the
requested rate and the `u32`-cast source rate) iff the requested rate
exceeds the source rate; otherwise `HasAudio` iff audio is requested but
the source has none; otherwise `ok`. -/
theorem check_up_scaling_cases (c : VideoConfig) (stat : VideoStat)
    (h0 : 0 ≤ stat.video_stream.fps) (h1 : stat.video_stream.fps < 2 ^ 32) :
    (c.check_up_scaling stat =
        Except.error (VideoConfigUpScalingErr.Resolution c.res
          (VideoRes.from_wh stat.video_stream.width stat.video_stream.height)) ↔
      (c.res.to_wh.1 > stat.video_stream.width ∨
        c.res.to_wh.2 > stat.video_stream.height))
  ∧ (c.check_up_scaling stat =
        Except.error (VideoConfigUpScalingErr.Fps c.fps
          (f32_to_u32 stat.video_stream.fps)) ↔
      (¬(c.res.to_wh.1 > stat.video_stream.width ∨
          c.res.to_wh.2 > stat.video_stream.height) ∧
        stat.video_stream.fps < (c.fps : ℚ)))
  ∧ (c.check_up_scaling stat = Except.error VideoConfigUpScalingErr.HasAudio ↔
      (¬(c.res.to_wh.1 > stat.video_stream.width ∨
          c.res.to_wh.2 > stat.video_stream.height) ∧
        ¬stat.video_stream.fps < (c.fps : ℚ) ∧
        (c.has_audio = true ∧ stat.audio_streams = [])))
  ∧ (c.check_up_scaling stat = Except.ok () ↔
      (¬(c.res.to_wh.1 > stat.video_stream.width ∨
          c.res.to_wh.2 > stat.video_stream.height) ∧
        ¬stat.video_stream.fps < (c.fps : ℚ) ∧
        ¬(c.has_audio = true ∧ stat.audio_streams = []))) := by
  have hf := f32_to_u32_lt_iff stat.video_stream.fps c.fps h0 h1
  have haud : (c.has_audio && stat.audio_streams.isEmpty) = true ↔
      (c.has_audio = true ∧ stat.audio_streams = []) := by
    simp [List.isEmpty_iff]
  unfold VideoConfig.check_up_scaling
  by_cases hr : (c.res.to_wh.1 > stat.video_stream.width ∨
      c.res.to_wh.2 > stat.video_stream.height)
  · rw [if_pos hr]
    simp [hr]
  · rw [if_neg hr]
    by_cases hp : stat.video_stream.fps < (c.fps : ℚ)
    · rw [if_pos (hf.mpr hp)]
      simp [hr, hp]
    · have hp2 : ¬f32_to_u32 stat.video_stream.fps < c.fps := fun hcon => hp (hf.mp hcon)
      rw [if_neg hp2]
      by_cases ha : c.has_audio = true ∧ stat.audio_streams = []
      · rw [if_pos (haud.mpr ha)]
        simp [hr, hp, ha]
      · have ha2 : ¬(c.has_audio && stat.audio_streams.isEmpty) = true :=
          fun hcon => ha (haud.mp hcon)
        rw [if_neg ha2]
        simp [hr, hp, ha]

/-- Witness for C1: a 1080p request against a 720p source is rejected with
the `Resolution` error naming the source's preset equivalent. -/
theorem check_up_scaling_cases_witness :
    (0 : ℚ) ≤ 30 ∧ (30 : ℚ) < 2 ^ 32 ∧
    VideoConfig.check_up_scaling
        { res := VideoRes.R1080p, fps := 30, crf := 20, has_audio := true }
        { path := "assets/2.mp4",
          video_stream := { width := 1280, height := 720, fps := 30, pix_fmt := "yuv420p" },
          audio_streams := [{ sample_rate := 44100, channels := 2 }],
          duration := 10, file_size := 1000 } =
      Except.error (VideoConfigUpScalingErr.Resolution VideoRes.R1080p VideoRes.R720p) :=
  ⟨by norm_num, by norm_num,
    (check_up_scaling_cases
      { res := VideoRes.R1080p, fps := 30, crf := 20, has_audio := true }
      { path := "assets/2.mp4",
        video_stream := { width := 1280, height := 720, fps := 30, pix_fmt := "yuv420p" },
        audio_streams := [{ sample_rate := 44100, channels := 2 }],
        duration := 10, file_size := 1000 }
      (by norm_num) (by norm_num)).1.mpr (by norm_num [VideoRes.to_wh])⟩

/-- C5: when the configuration fails validation, `process` returns the
failure outcome wrapping the validation error without launching the
external process: the outcome is the same for every possible event stream
and exit code. -/
theorem process_rejected_config (stat : VideoStat) (params : VideoProcessParams)
    (events : List FfmpegEvent) (exit_code : Nat) (e : VideoConfigUpScalingErr)
    (h : params.config.check_up_scaling stat = Except.error e) :
    process stat params events exit_code =
      { launched := false, result := Except.error (ProcessError.ConfigError e) } := by
  unfold process
  rw [h]

/-- Witness for C5: a config requesting audio against an audio-less source
is rejected with `HasAudio` and the job fails with no process launched,
even though the supplied event stream contains no error at all. -/
theorem process_rejected_config_witness :
    VideoConfig.check_up_scaling
        { res := VideoRes.R720p, fps := 30, crf := 23, has_audio := true }
        { path := "assets/2.mp4",
          video_stream := { width := 1920, height := 1080, fps := 30, pix_fmt := "yuv420p" },
          audio_streams := [],
          duration := 10, file_size := 1000 } =
      Except.error VideoConfigUpScalingErr.HasAudio ∧
    process
        { path := "assets/2.mp4",
          video_stream := { width := 1920, height := 1080, fps := 30, pix_fmt := "yuv420p" },
          audio_streams := [],
          duration := 10, file_size := 1000 }
        { output_path := "out/x.mp4",
          config := { res := VideoRes.R720p, fps := 30, crf := 23, has_audio := true } }
        [FfmpegEvent.Progress 5] 0 =
      { launched := false,
        result := Except.error (ProcessError.ConfigError VideoConfigUpScalingErr.HasAudio) } := by
  constructor
  · rfl
  · exact process_rejected_config _ _ _ _ _ rfl

/-- C4 (code bug evidence): `video::process` never inspects the child's
exit status.  Here the child exits with status 1 while emitting no
fatal/error log line, and `process` still reports success. -/
theorem process_ignores_nonzero_exit :
    process
        { path := "assets/2.mp4",
          video_stream := { width := 1920, height := 1080, fps := 30, pix_fmt := "yuv420p" },
          audio_streams := [{ sample_rate := 44100, channels := 2 }],
          duration := 10, file_size := 1000 }
        { output_path := "out/x.mp4",
          config := { res := VideoRes.R720p, fps := 30, crf := 23, has_audio := true } }
        [FfmpegEvent.Progress 5, FfmpegEvent.Log LogLevel.Info "frame=5"] 1 =
      { launched := true, result := Except.ok () } := rfl

/-- C7 counterexample: for a source of duration 10.5 s at 30 fps the code's
expected total is `300` frames — `as_secs` truncates the duration to whole
seconds first — while duration × frame-rate is `315`. -/
theorem expected_total_frames_counterexample :
    expected_total_frames
        { path := "assets/2.mp4",
          video_stream := { width := 1920, height := 1080, fps := 30, pix_fmt := "yuv420p" },
          audio_streams := [],
          duration := 21 / 2, file_size := 1000 } = 300 ∧
    ((21 : ℚ) / 2) * 30 = 315 ∧ (300 : Nat) ≠ 315 := by
  refine ⟨?_, by norm_num, by norm_num⟩
  norm_num [expected_total_frames, total_frame, duration_as_secs, f32_to_u64]
  rw [show Int.toNat 10 = 10 from rfl]
  norm_num
  rfl

/-- C7 (amended): for a source whose duration is a whole number `n` of
seconds and whose frame rate is a natural number `m` (with `n * m` in `u64`
range), the expected total frame count is `n * m` = duration × frame-rate;
in general the code uses the duration truncated to whole seconds. -/
theorem expected_total_frames_integral (stat : VideoStat) (n m : Nat)
    (hd : stat.duration = (n : ℚ)) (hm : stat.video_stream.fps = (m : ℚ))
    (hb : n * m < 2 ^ 64) :
    expected_total_frames stat = n * m := by
  unfold expected_total_frames total_frame duration_as_secs f32_to_u64
  rw [hd, hm]
  rw [Int.floor_natCast]
  have h1 : ((Int.toNat (n : ℤ) : ℚ) * (m : ℚ)) = ((n * m : Nat) : ℚ) := by
    push_cast [Int.toNat_natCast]
    ring
  rw [h1, Int.floor_natCast]
  omega

/-- Witness for C7's amended theorem: the spec scenario — duration 10 s at
30 fps gives 300 expected frames, and a tick at frame 150 is 50 %. -/
theorem expected_total_frames_integral_witness :
    expected_total_frames
        { path := "assets/2.mp4",
          video_stream := { width := 1920, height := 1080, fps := 30, pix_fmt := "yuv420p" },
          audio_streams := [],
          duration := 10, file_size := 1000 } = 10 * 30 ∧
    (150 : ℚ) / (10 * 30) = 1 / 2 :=
  ⟨expected_total_frames_integral _ 10 30 (by norm_num) (by norm_num) (by norm_num),
   by norm_num⟩

/-- C3: over the run's configuration space (the 16 configs main.rs builds),
the map to the output-path suffix is injective: the list of derived file
names has no duplicate, so no two jobs collide on an output path. -/
theorem run_file_names_nodup :
    (run_configs.map VideoConfig.to_file_name).Nodup := by
  decide

/-- A flatMap whose per-element blocks all have length `m` has total
length `l.length * m`. -/
lemma flatMap_const_length {α β : Type} (g : α → List β) (m : Nat) :
    ∀ l : List α, (∀ a ∈ l, (g a).length = m) →
      (l.flatMap g).length = l.length * m := by
  intro l
  induction l with
  | nil => intro _; simp
  | cons a t ih =>
    intro h
    rw [List.flatMap_cons, List.length_append, List.length_cons,
      h a (List.mem_cons_self a t), ih fun x hx => h x (List.mem_cons_of_mem a hx)]
    ring

/-- Indexing into a flatMap of constant-length blocks: position
`i * m + j` reads position `j` of block `i`. -/
lemma flatMap_const_getElem {α β : Type} (g : α → List β) (m : Nat) :
    ∀ (l : List α), (∀ a ∈ l, (g a).length = m) →
      ∀ i j (hi : i < l.length), j < m →
        (l.flatMap g)[i * m + j]? = (g (l.get ⟨i, hi⟩))[j]? := by
  intro l
  induction l with
  | nil => intro _ i j hi; exact absurd hi (by simp)
  | cons a t ih =>
    intro h i j hi hj
    rw [List.flatMap_cons]
    cases i with
    | zero =>
      have hlen : (g a).length = m := h a (List.mem_cons_self a t)
      simp only [Nat.zero_mul, Nat.zero_add]
      rw [List.getElem?_append, if_pos (by omega)]
      rfl
    | succ i =>
      rw [List.getElem?_append_right]
      · have hlen : (g a).length = m := h a (List.mem_cons_self a t)
        have harith : (i + 1) * m + j - (g a).length = i * m + j := by
          rw [hlen]
          have : (i + 1) * m = i * m + m := by ring
          omega
        rw [harith]
        exact ih (fun x hx => h x (List.mem_cons_of_mem a hx)) i j
          (by simpa using hi) hj
      · have hlen : (g a).length = m := h a (List.mem_cons_self a t)
        have hm : m ≤ (i + 1) * m := Nat.le_mul_of_pos_left m (Nat.succ_pos i)
        omega

/-- Block lengths of the inner fps × crf product. -/
lemma inner_block_length (fs cs : List Nat) (r : VideoRes) :
    ((fun r => fs.flatMap fun f => cs.map fun c => (r, f, c)) r).length =
      fs.length * cs.length := by
  refine flatMap_const_length _ _ fs fun f _ => ?_
  simp

/-- C2: the job matrix has length |res| · |fps| · |crf|; the element at flat
position `(i · |fps| + j) · |crf| + k` is the triple of the `i`-th
resolution, `j`-th frame rate and `k`-th quality factor — the Cartesian
product enumerated with resolution outermost, then frame rate, then quality
factor; and the sequence is a deterministic function of the inputs. -/
theorem expand_matrix_spec (rs : List VideoRes) (fs cs : List Nat) :
    (expand rs fs cs).length = rs.length * fs.length * cs.length
  ∧ (∀ i j k (hi : i < rs.length) (hj : j < fs.length) (hk : k < cs.length),
      (expand rs fs cs)[(i * fs.length + j) * cs.length + k]? =
        some (rs.get ⟨i, hi⟩, fs.get ⟨j, hj⟩, cs.get ⟨k, hk⟩))
  ∧ (∀ rs2 fs2 cs2, rs = rs2 → fs = fs2 → cs = cs2 →
      expand rs fs cs = expand rs2 fs2 cs2) := by
  refine ⟨?_, ?_, ?_⟩
  · rw [expand, flatMap_const_length _ (fs.length * cs.length) rs
      (fun r _ => inner_block_length fs cs r)]
    ring
  · intro i j k hi hj hk
    have hidx : (i * fs.length + j) * cs.length + k =
        i * (fs.length * cs.length) + (j * cs.length + k) := by ring
    rw [expand, hidx,
      flatMap_const_getElem _ (fs.length * cs.length) rs
        (fun r _ => inner_block_length fs cs r) i (j * cs.length + k) hi
        (by
          calc j * cs.length + k < j * cs.length + cs.length :=
                Nat.add_lt_add_left hk _
            _ = (j + 1) * cs.length := by ring
            _ ≤ fs.length * cs.length := Nat.mul_le_mul_right _ hj),
      flatMap_const_getElem _ cs.length fs (fun f _ => by simp) j k hj hk,
      List.getElem?_map, List.getElem?_eq_getElem hk]
    rfl
  · intro rs2 fs2 cs2 h1 h2 h3
    rw [h1, h2, h3]

/-- Witness for C2 on a concrete space: 2 × 1 × 2 inputs give 4 jobs, and
flat position 3 = (1·1 + 0)·2 + 1 holds the second resolution, the only
fps, and the second crf. -/
theorem expand_matrix_spec_witness :
    (expand [VideoRes.R240p, VideoRes.R720p] [30] [20, 40]).length = 2 * 1 * 2 ∧
    (expand [VideoRes.R240p, VideoRes.R720p] [30] [20, 40])[3]? =
      some (VideoRes.R720p, 30, 40) := by
  refine ⟨(expand_matrix_spec _ _ _).1, ?_⟩
  have h := (expand_matrix_spec [VideoRes.R240p, VideoRes.R720p] [30] [20, 40]).2.1
    1 0 1 (by norm_num) (by norm_num) (by norm_num)
  simpa using h

/-- Looking up index `i` in an index-tagged trace finds `i`'s entry: the
predicate only accepts the exact index, so the first hit carries `g i`. -/
lemma find?_key {α : Type} (g : Nat → α) (i : Nat) :
    ∀ σ : List Nat, i ∈ σ →
      ((σ.map fun j => (j, g j)).find? fun p => p.1 == i) = some (i, g i) := by
  intro σ
  induction σ with
  | nil => intro hmem; exact absurd hmem (by simp)
  | cons a t ih =>
    intro hmem
    rw [List.map_cons]
    by_cases hai : a = i
    · subst hai
      rw [List.find?_cons_of_pos _ (by simp)]
    · rw [List.find?_cons_of_neg _ (by simp [hai])]
      refine ih ?_
      rcases List.mem_cons.mp hmem with h | h
      · exact absurd h.symm hai
      · exact h

/-- Joining a complete trace restores the original outcome order: whatever
permutation the units complete in, position `i` of the joined sequence is
job `i`'s outcome. -/
lemma joinAll_completionTrace {α : Type} (outs : List α) (σ : List Nat) (d : α)
    (h : σ.Perm (List.range outs.length)) :
    joinAll outs.length (completionTrace outs σ d) d = outs := by
  unfold joinAll completionTrace
  apply List.ext_getElem
  · simp
  intro n h1 h2
  rw [List.getElem_map, List.getElem_range]
  have hn : n < outs.length := h2
  have hmem : n ∈ σ := h.mem_iff.mpr (List.mem_range.mpr hn)
  rw [find?_key (fun j => outs.getD j d) n σ hmem]
  simp [List.getD_eq_getElem outs d hn, List.getElem?_eq_getElem hn]

/-- C9: for the run's job sequence, the orchestrator's joined outcome
sequence is positionally correlated with the configuration sequence: for
every completion order `σ` (any permutation of the job indices), the
outcome at position `i` is the outcome of the job at position `i`. -/
theorem orchestrator_preserves_order (stat : VideoStat)
    (ev : VideoConfig → List FfmpegEvent) (ex : VideoConfig → Nat)
    (op : VideoConfig → String) (σ : List Nat) (d : ProcessResult)
    (h : σ.Perm (List.range run_configs.length)) :
    joinAll run_configs.length
        (completionTrace (run_configs.map fun c =>
          process stat { output_path := op c, config := c } (ev c) (ex c)) σ d) d =
      run_configs.map fun c =>
        process stat { output_path := op c, config := c } (ev c) (ex c) := by
  have hlen : (run_configs.map fun c =>
      process stat { output_path := op c, config := c } (ev c) (ex c)).length =
      run_configs.length := List.length_map _ _
  rw [show run_configs.length = (run_configs.map fun c =>
      process stat { output_path := op c, config := c } (ev c) (ex c)).length
    from hlen.symm] at h ⊢
  exact joinAll_completionTrace _ σ d h

/-- Witness for C9: jobs completing in exactly reversed order still join
into the original-order outcome sequence. -/
theorem orchestrator_preserves_order_witness :
    ((List.range run_configs.length).reverse).Perm (List.range run_configs.length) ∧
    joinAll run_configs.length
        (completionTrace (run_configs.map fun c =>
          process
            { path := "assets/2.mp4",
              video_stream := { width := 1920, height := 1080, fps := 30, pix_fmt := "yuv420p" },
              audio_streams := [{ sample_rate := 44100, channels := 2 }],
              duration := 10, file_size := 1000 }
            { output_path := "", config := c } [] 0)
          ((List.range run_configs.length).reverse)
          { launched := false, result := Except.ok () })
        { launched := false, result := Except.ok () } =
      run_configs.map fun c =>
        process
          { path := "assets/2.mp4",
            video_stream := { width := 1920, height := 1080, fps := 30, pix_fmt := "yuv420p" },
            audio_streams := [{ sample_rate := 44100, channels := 2 }],
            duration := 10, file_size := 1000 }
          { output_path := "", config := c } [] 0 :=
  ⟨List.reverse_perm _,
    orchestrator_preserves_order _ (fun _ => []) (fun _ => 0) (fun _ => "") _ _
      (List.reverse_perm _)⟩

end VVCNV
